import Mathlib

/-!
Verification of the WorkOS-FGA Lambda authorizer repository.

The repository contains an AWS CDK deployment whose algorithmic pieces are:
(a) a Lambda token authorizer (`src/authorizer/index.ts`) that verifies a JWT
    identity claim, extracts a document id from the method ARN, asks the FGA
    service whether the subject holds `viewer` on the document, and translates
    the boolean into an IAM Allow/Deny policy; and
(b) the FGA schema (`schema.txt`) declaring types `user`, `team`, `document`
    with inherit rules `editor if owner` and
    `viewer if any_of(editor, member on parent [team])`.

The relation-resolution engine itself (schema registry, warrant store,
relation resolver, decision service) is the hosted WorkOS FGA service and is
not part of the repository's sources; where a property concerns that engine it
is modelled from the specification, and the definitions say so in their doc
comments.
-/

namespace Fga

/-- A typed object reference `type:id`, as used for both subjects and
resources of a warrant. -/
structure Obj where
  type : String
  id : String
deriving DecidableEq, Repr

/-- A concrete relationship fact: subject `subjType:subjId` holds `relation`
on resource `resType:resId` (the shape written by the demo script's
`batchWriteWarrants` calls). -/
structure Warrant where
  resType : String
  resId : String
  relation : String
  subjType : String
  subjId : String
deriving DecidableEq, Repr

/-- Modelled from the spec: a single inherit sub-rule. `rel r2` is the
same-object rule `relation r2`; `relOn r2 via viaType` is the cross-type rule
`relation r2 on via [viaType]`. -/
inductive Clause where
  | rel (r2 : String)
  | relOn (r2 : String) (via : String) (viaType : String)
deriving DecidableEq, Repr

/-- Modelled from the spec: a relation declaration: its name, the directly
assignable subject types, and its inherit rule as an `any_of` list of
sub-rules (empty list: no inherit rule; singleton: a plain `inherit _ if`
rule). -/
structure RelationDef where
  name : String
  subjectTypes : List String
  inherit : List Clause
deriving DecidableEq, Repr

/-- Modelled from the spec: a type declaration with its relations. -/
structure TypeDef where
  name : String
  relations : List RelationDef
deriving DecidableEq, Repr

/-- Modelled from the spec: a compiled schema is the list of its type
declarations. -/
abbrev Schema := List TypeDef

/-- Modelled from the spec: the `(subject, relation, object)` triples the
resolver tracks on its call stack for cycle safety. -/
structure Triple where
  subject : Obj
  relation : String
  object : Obj
deriving DecidableEq, Repr

/-- Look up a type declaration by name. -/
def findType (S : Schema) (name : String) : Option TypeDef :=
  S.find? (fun td => td.name == name)

/-- Look up a relation declaration on a type. -/
def findRel (td : TypeDef) (rel : String) : Option RelationDef :=
  td.relations.find? (fun rd => rd.name == rel)

/-- Is there a direct (non-inherited) warrant matching the triple? -/
def hasDirectWarrant (W : List Warrant) (t : Triple) : Bool :=
  W.any fun w =>
    w.resType == t.object.type && w.resId == t.object.id &&
    w.relation == t.relation &&
    w.subjType == t.subject.type && w.subjId == t.subject.id

/-- Objects reachable from `obj` via the indirection relation `via`,
restricted to the declared related type: the object-valued reading of the
`via` warrants on `obj` (e.g. the team named by a document's `parent`
warrant). -/
def relatedObjs (W : List Warrant) (obj : Obj) (via : String)
    (viaType : String) : List Obj :=
  (W.filter fun w =>
      w.resType == obj.type && w.resId == obj.id &&
      w.relation == via && w.subjType == viaType).map
    fun w => Obj.mk w.subjType w.subjId

/-- The relation names mentioned anywhere in the schema (declared or
referenced by an inherit sub-rule). -/
def relsOf (S : Schema) : List String :=
  S.flatMap fun td => td.relations.flatMap fun rd =>
    rd.name :: rd.inherit.flatMap fun c =>
      match c with
      | .rel r2 => [r2]
      | .relOn r2 via _ => [r2, via]

/-- The objects a resolution started at `obj0` can ever reach: the start
object and every warrant subject read as an object. -/
def objsOf (W : List Warrant) (obj0 : Obj) : List Obj :=
  obj0 :: W.map fun w => Obj.mk w.subjType w.subjId

/-- The finite universe of triples a resolution for `subj` starting at `obj0`
can visit. -/
def candidates (S : Schema) (W : List Warrant) (subj obj0 : Obj) :
    List Triple :=
  (relsOf S).flatMap fun r => (objsOf W obj0).map fun o => Triple.mk subj r o

/-- How many candidate triples are not yet on the visited stack: the
termination measure of the resolver. -/
def unvisited (S : Schema) (W : List Warrant) (subj obj0 : Obj)
    (visited : List Triple) : Nat :=
  ((candidates S W subj obj0).filter fun c => decide (c ∉ visited)).length

theorem length_filter_lt_of_flip {α : Type} {l : List α} {p q : α → Bool}
    (hpq : ∀ a, p a = true → q a = true) {x : α} (hx : x ∈ l)
    (hpx : p x = false) (hqx : q x = true) :
    (l.filter p).length < (l.filter q).length := by
  induction l with
  | nil => cases hx
  | cons a tl ih =>
    rcases List.mem_cons.mp hx with rfl | hmem
    · rw [List.filter_cons_of_neg (by simp [hpx]), List.filter_cons_of_pos hqx]
      exact Nat.lt_succ_of_le (List.Sublist.length_le
        (List.monotone_filter_right tl hpq))
    · by_cases hpa : p a = true
      · rw [List.filter_cons_of_pos hpa, List.filter_cons_of_pos (hpq a hpa)]
        simpa using ih hmem
      · rw [List.filter_cons_of_neg (by simp_all)]
        by_cases hqa : q a = true
        · rw [List.filter_cons_of_pos hqa]
          exact Nat.lt_succ_of_lt (ih hmem)
        · rw [List.filter_cons_of_neg (by simp_all)]
          exact ih hmem

theorem unvisited_cons_lt {S : Schema} {W : List Warrant} {subj obj0 : Obj}
    {visited : List Triple} {t : Triple}
    (hc : t ∈ candidates S W subj obj0) (hv : t ∉ visited) :
    unvisited S W subj obj0 (t :: visited) < unvisited S W subj obj0 visited := by
  refine length_filter_lt_of_flip ?_ hc ?_ ?_
  · intro a ha
    simp only [decide_eq_true_eq, List.mem_cons, not_or] at ha ⊢
    exact ha.2
  · simp
  · simp [hv]

mutual

/-- Modelled from the spec: the relation resolver's depth-first search.
`visited` is the set of triples currently on the call stack; re-entering a
triple (or leaving the finite candidate universe) returns `false` for that
branch. Otherwise the result is the OR of a direct warrant match and the
object's type's inherit rule for the relation. -/
def resolveGo (S : Schema) (W : List Warrant) (subj obj0 : Obj)
    (visited : List Triple) (t : Triple) : Bool :=
  if h : t ∈ visited ∨ t ∉ candidates S W subj obj0 then false
  else
    hasDirectWarrant W t ||
      (match findType S t.object.type with
       | none => false
       | some td =>
         match findRel td t.relation with
         | none => false
         | some rd => evalClauses S W subj obj0 (t :: visited) t.object rd.inherit)
termination_by (unvisited S W subj obj0 visited, 0, 0)
decreasing_by
  simp_wf
  apply Prod.Lex.left
  push_neg at h
  exact unvisited_cons_lt h.2 h.1

/-- Modelled from the spec: `any_of` over the inherit sub-rules, with OR
short-circuiting; a same-object sub-rule recursively checks `r2` on the same
object, a cross-type sub-rule checks `r2` on each related object. -/
def evalClauses (S : Schema) (W : List Warrant) (subj obj0 : Obj)
    (visited : List Triple) (obj : Obj) : List Clause → Bool
  | [] => false
  | c :: rest =>
    (match c with
     | .rel r2 => resolveGo S W subj obj0 visited (Triple.mk subj r2 obj)
     | .relOn r2 via viaType =>
       anyRelated S W subj obj0 visited r2 (relatedObjs W obj via viaType))
    || evalClauses S W subj obj0 visited obj rest
termination_by cs => (unvisited S W subj obj0 visited, 2, cs.length)

/-- Modelled from the spec: check the triple `(subj, r2, o)` for each related
object `o`, short-circuiting on the first success. -/
def anyRelated (S : Schema) (W : List Warrant) (subj obj0 : Obj)
    (visited : List Triple) (r2 : String) : List Obj → Bool
  | [] => false
  | o :: rest =>
    resolveGo S W subj obj0 visited (Triple.mk subj r2 o) ||
      anyRelated S W subj obj0 visited r2 rest
termination_by os => (unvisited S W subj obj0 visited, 1, os.length)

end

/-- Modelled from the spec: errors a malformed check query fails with —
distinct from a deny, never silently mapped to `authorized = false`. -/
inductive CheckError where
  | unknownType (t : String)
  | unknownRelation (objType rel : String)
deriving DecidableEq, Repr

/-- Modelled from the spec: the relation resolver's entry point. A query
whose object type or relation is not declared in the compiled schema fails
with `UnknownTypeError` / `UnknownRelationError`; a well-formed query is
resolved to a boolean with an empty visited stack. -/
def check (S : Schema) (W : List Warrant) (subj : Obj) (rel : String)
    (obj : Obj) : Except CheckError Bool :=
  match findType S obj.type with
  | none => .error (.unknownType obj.type)
  | some td =>
    match findRel td rel with
    | none => .error (.unknownRelation obj.type rel)
    | some _ => .ok (resolveGo S W subj obj [] (Triple.mk subj rel obj))

/-- The repository's `schema.txt`: types `user`, `team` (relation
`member [user]`) and `document` (relations `parent [team]`, `owner [user]`,
`editor [user]`, `viewer [user]`; `inherit editor if relation owner`;
`inherit viewer if any_of (relation editor, relation member on parent
[team])`). -/
def repoSchema : Schema :=
  [TypeDef.mk "user" [],
   TypeDef.mk "team" [RelationDef.mk "member" ["user"] []],
   TypeDef.mk "document"
     [RelationDef.mk "parent" ["team"] [],
      RelationDef.mk "owner" ["user"] [],
      RelationDef.mk "editor" ["user"] [Clause.rel "owner"],
      RelationDef.mk "viewer" ["user"]
        [Clause.rel "editor", Clause.relOn "member" "parent" "team"]]]

/-- Modelled from the spec: a warrant in the version-stamped log, carrying
the version at which it was created and, if retracted, the version of the
tombstone. -/
structure VersionedWarrant where
  warrant : Warrant
  createdAt : Nat
  retractedAt : Option Nat
deriving DecidableEq, Repr

/-- Modelled from the spec: the warrant store is the append-only log of
version-stamped warrants. -/
abbrev Store := List VersionedWarrant

/-- Modelled from the spec: the warrants visible at version `v` — created at
or before `v` and not tombstoned at or before `v`. -/
def visibleAt (s : Store) (v : Nat) : List Warrant :=
  (s.filter fun vw =>
      vw.createdAt ≤ v &&
        (match vw.retractedAt with
         | none => true
         | some r => v < r)).map fun vw => vw.warrant

/-- Modelled from the spec: the store's latest (strictly increasing) version:
the largest version stamp in the log. -/
def latestVersion (s : Store) : Nat :=
  s.foldr (fun vw acc => max (max vw.createdAt (vw.retractedAt.getD 0)) acc) 0

/-- Modelled from the spec: the consistency token — an opaque reference to a
specific warrant-store version. -/
structure ConsistencyToken where
  version : Nat
deriving DecidableEq, Repr

/-- Modelled from the spec: the decision artifact
`{subjectId, resourceId, relation, authorized, atVersion, consistencyToken}`
exposed to enforcement points. -/
structure Decision where
  subjectId : String
  resourceId : String
  relation : String
  authorized : Bool
  atVersion : Nat
  consistencyToken : ConsistencyToken
deriving DecidableEq, Repr

/-- Modelled from the spec: errors of the decision service. -/
inductive DecideError where
  | invalidClaim
  | checkFailed (e : CheckError)
deriving DecidableEq, Repr

/-- Modelled from the spec: the decision service's version pinning and check
step — decode `consistencyToken` if present to obtain a pinned version, else
use the store's latest version; evaluate the check against the warrants
visible at that version; synthesize the `Decision`. -/
def decideAt (S : Schema) (s : Store) (subj : Obj) (rel : String) (obj : Obj)
    (tok : Option ConsistencyToken) : Except DecideError Decision :=
  let v := match tok with
    | some t => t.version
    | none => latestVersion s
  match check S (visibleAt s v) subj rel obj with
  | .error e => .error (.checkFailed e)
  | .ok b =>
    .ok (Decision.mk subj.id obj.id rel b v (ConsistencyToken.mk v))

end Fga

namespace Authorizer

/-- Is `ps` an initial segment of `cs`? (Char-level core of JavaScript's
`String.prototype.startsWith`.) -/
def charsStartWith : List Char → List Char → Bool
  | _, [] => true
  | [], _ :: _ => false
  | c :: cs, p :: ps => c == p && charsStartWith cs ps

/-- JavaScript's `token.startsWith(pre)` for single-byte-char prefixes,
computed on the underlying character lists. -/
def jsStartsWith (s pre : String) : Bool :=
  charsStartWith s.data pre.data

/-- Split a character list at every occurrence of `sep` (JavaScript's
`String.prototype.split` with a one-character separator: the result is never
empty, and empty fields are kept). -/
def splitChars (sep : Char) : List Char → List (List Char)
  | [] => [[]]
  | c :: cs =>
    if c = sep then [] :: splitChars sep cs
    else
      match splitChars sep cs with
      | [] => [[c]]
      | h :: t => (c :: h) :: t

/-- JavaScript's `s.split(sep)` for a one-character separator. -/
def jsSplit (s : String) (sep : Char) : List String :=
  (splitChars sep s.data).map String.mk

/-- The claims payload of a JWT as the handler reads it: the `sub` claim and
an optional `exp` claim (seconds). -/
structure JwtPayload where
  sub : String
  exp : Option Nat
deriving DecidableEq, Repr

/-- An abstract decoded JWT: its payload together with the key that produced
its signature. Signature verification is modelled as comparing `signedWith`
with the verifier's secret (the perfect-crypto abstraction of the
`jsonwebtoken` library the handler calls). -/
structure SignedJwt where
  payload : JwtPayload
  signedWith : String
deriving DecidableEq, Repr

/-- Errors of `jwt.verify` as the handler can observe them: the token string
does not decode to a JWT, its signature was not produced with the verifier's
secret, or its `exp` claim is at or before the current time. -/
inductive JwtError where
  | malformed
  | badSignature
  | expired
deriving DecidableEq, Repr

/-- `jwt.verify(tokenString, JWT_SECRET)`: decode the token string, compare
the signing key with `secret`, and reject an `exp` at or before `now`. The
wire decoding is the abstract `decodeJwt` parameter. -/
def jwtVerify (decodeJwt : String → Option SignedJwt) (now : Nat)
    (secret : String) (tokenString : String) : Except JwtError JwtPayload :=
  match decodeJwt tokenString with
  | none => .error .malformed
  | some t =>
    if t.signedWith ≠ secret then .error .badSignature
    else
      match t.payload.exp with
      | none => .ok t.payload
      | some e => if e ≤ now then .error .expired else .ok t.payload

/-- `JWT_SECRET = process.env.JWT_SECRET || 'your-secret-key'`: the secret is
the environment variable unless it is unset or empty (both falsy in
JavaScript), in which case the hardcoded constant is used. -/
def jwtSecret (env : Option String) : String :=
  match env with
  | none => "your-secret-key"
  | some s => if s = "" then "your-secret-key" else s

/-- `token.split(' ')[1]`: the part of the header after the first space. -/
def bearerToken (token : String) : String :=
  (jsSplit token ' ').getD 1 ""

/-- `getUserIdFromToken`: require the `Bearer ` prefix, take
`token.split(' ')[1]`, verify it, and return the `sub` claim. -/
def getUserIdFromToken (decodeJwt : String → Option SignedJwt) (now : Nat)
    (secret : String) (token : String) : Except JwtError String :=
  if ¬ jsStartsWith token "Bearer " then .error .malformed
  else
    match jwtVerify decodeJwt now secret (bearerToken token) with
    | .error e => .error e
    | .ok payload => .ok payload.sub

/-- `event.methodArn.split(':').pop()?.split('/').pop()`: the substring after
the last `:`, then the substring of that after the last `/`. JavaScript's
`split` never returns an empty array, so `pop` only yields `undefined`
(`none`) if a split result were empty. -/
def extractDocumentId (arn : String) : Option String :=
  match (jsSplit arn ':').getLast? with
  | none => none
  | some s => (jsSplit s '/').getLast?

/-- The `APIGatewayTokenAuthorizerEvent` as the handler uses it. A TOKEN
authorizer receives only the identity-source header and the method ARN; the
`warrantTokenHeader` field records the `Warrant-Token` header the demo
callers send, so that the handler's independence from it can be stated. -/
structure AuthorizerEvent where
  authorizationToken : String
  methodArn : String
  warrantTokenHeader : Option String
deriving DecidableEq, Repr

/-- One statement of the returned IAM policy. -/
structure PolicyStatement where
  action : String
  effect : String
  resource : String
deriving DecidableEq, Repr

/-- The returned policy document. -/
structure PolicyDocument where
  version : String
  statement : List PolicyStatement
deriving DecidableEq, Repr

/-- The `APIGatewayAuthorizerResult` the handler returns. -/
structure AuthorizerResult where
  principalId : String
  policyDocument : PolicyDocument
deriving DecidableEq, Repr

/-- The request the handler sends to `workos.fga.check`: it names resource
type `report`, the extracted document id, relation `viewer` and subject type
`user`; it carries no version and no consistency token field. -/
structure CheckRequest where
  resourceType : String
  resourceId : String
  relation : String
  subjectType : String
  subjectId : String
deriving DecidableEq, Repr

/-- The Lambda authorizer handler. `fgaCheck` is the remote
`workos.fga.check` call (any failure of it is an exception into the
handler's catch block). Every error path reaches the catch block, which
rethrows `Unauthorized`; the success path returns the policy whose effect is
`Allow` exactly when the check reported authorized. -/
def handler (decodeJwt : String → Option SignedJwt)
    (fgaCheck : CheckRequest → Except Fga.CheckError Bool) (now : Nat)
    (jwtSecretEnv : Option String) (event : AuthorizerEvent) :
    Except String AuthorizerResult :=
  match extractDocumentId event.methodArn with
  | none => .error "Unauthorized"
  | some documentId =>
    if documentId = "" then .error "Unauthorized"
    else
      match getUserIdFromToken decodeJwt now (jwtSecret jwtSecretEnv)
          event.authorizationToken with
      | .error _ => .error "Unauthorized"
      | .ok userId =>
        match fgaCheck
            (CheckRequest.mk "report" documentId "viewer" "user" userId) with
        | .error _ => .error "Unauthorized"
        | .ok authorized =>
          .ok (AuthorizerResult.mk userId
            (PolicyDocument.mk "2012-10-17"
              [PolicyStatement.mk "execute-api:Invoke"
                (if authorized then "Allow" else "Deny") event.methodArn]))

end Authorizer

namespace Fixtures

open Fga Authorizer

/-- The warrants the demo script writes: alice and bob are members of team
`engineering`, alice owns `owner-only-doc.txt`, and `team-doc-1.txt` has the
team as `parent`. -/
def demoWarrants : List Warrant :=
  [Warrant.mk "team" "engineering" "member" "user" "alice",
   Warrant.mk "team" "engineering" "member" "user" "bob",
   Warrant.mk "document" "owner-only-doc.txt" "owner" "user" "alice",
   Warrant.mk "document" "team-doc-1.txt" "parent" "team" "engineering"]

/-- A concrete JWT decoding environment: `alice-token` is signed with the
fallback secret, `expired-token` carries an `exp` in the past, and
`mallory-token` is signed with a different key. -/
def demoDecodeJwt : String → Option SignedJwt := fun ts =>
  if ts = "alice-token" then
    some (SignedJwt.mk (JwtPayload.mk "alice" none) "your-secret-key")
  else if ts = "expired-token" then
    some (SignedJwt.mk (JwtPayload.mk "alice" (some 10)) "your-secret-key")
  else if ts = "mallory-token" then
    some (SignedJwt.mk (JwtPayload.mk "mallory" none) "attacker-key")
  else none

/-- A concrete method ARN of the deployed `GET /documents/{documentId}`
route. -/
def demoArn : String :=
  "arn:aws:execute-api:us-east-1:123456789012:abc123/prod/GET/documents/doc1"

/-- A concrete authorizer event with a well-formed bearer token. -/
def demoEvent : AuthorizerEvent :=
  AuthorizerEvent.mk "Bearer alice-token" demoArn (some "warrant-token")

/-- Modelled from the spec: a schema whose two relations inherit from each
other (`a` inherits from `b` and `b` inherits from `a`), the mutual inherit
cycle of the cycle-termination property. -/
def cyclicSchema : Schema :=
  [TypeDef.mk "user" [],
   TypeDef.mk "x"
     [RelationDef.mk "a" ["user"] [Clause.rel "b"],
      RelationDef.mk "b" ["user"] [Clause.rel "a"]]]

end Fixtures

section Claims

open Fga Authorizer Fixtures

/-- C1: for every authorizer event for which identity-claim verification and
the FGA check both succeed, the returned policy is a pure function of the
check's boolean: the statement's Effect is `Allow` iff the check reported
authorized and `Deny` otherwise, its Resource is the event's methodArn, and
the principalId is the subject id from the verified claim. -/
theorem C1_policy_pure_function_of_check
    (decodeJwt : String → Option SignedJwt)
    (fgaCheck : CheckRequest → Except CheckError Bool)
    (now : Nat) (env : Option String) (event : AuthorizerEvent)
    (d uid : String) (b : Bool)
    (hd : extractDocumentId event.methodArn = some d) (hne : d ≠ "")
    (huid : getUserIdFromToken decodeJwt now (jwtSecret env)
        event.authorizationToken = .ok uid)
    (hchk : fgaCheck (CheckRequest.mk "report" d "viewer" "user" uid) = .ok b) :
    handler decodeJwt fgaCheck now env event =
      .ok (AuthorizerResult.mk uid
        (PolicyDocument.mk "2012-10-17"
          [PolicyStatement.mk "execute-api:Invoke"
            (if b then "Allow" else "Deny") event.methodArn])) ∧
    ((if b then "Allow" else "Deny") = "Allow" ↔ b = true) := by
  constructor
  · simp [handler, hd, hne, huid, hchk]
  · cases b <;> simp

/-- Witness for C1 at a concrete event: alice's valid token and an
authorizing check produce the Allow policy on the event's method ARN. -/
theorem C1_witness :
    handler demoDecodeJwt (fun _ => .ok true) 0 none demoEvent =
      .ok (AuthorizerResult.mk "alice"
        (PolicyDocument.mk "2012-10-17"
          [PolicyStatement.mk "execute-api:Invoke" "Allow" demoArn])) := by
  have h := C1_policy_pure_function_of_check demoDecodeJwt (fun _ => .ok true)
    0 none demoEvent "doc1" "alice" true (by decide) (by decide) (by rfl) rfl
  simpa [demoEvent] using h.1

/-- C2: for every authorizer event whose authorization token is malformed
(no `Bearer ` prefix or undecodable), expired, or signed with a key other
than the configured secret, identity-claim verification fails with an error
and the handler throws `Unauthorized`, returning no policy document. -/
theorem C2_invalid_claim_throws
    (decodeJwt : String → Option SignedJwt)
    (fgaCheck : CheckRequest → Except CheckError Bool)
    (now : Nat) (env : Option String) (event : AuthorizerEvent)
    (hbad : jsStartsWith event.authorizationToken "Bearer " = false
      ∨ decodeJwt (bearerToken event.authorizationToken) = none
      ∨ (∃ t, decodeJwt (bearerToken event.authorizationToken) = some t
          ∧ t.signedWith ≠ jwtSecret env)
      ∨ (∃ t e, decodeJwt (bearerToken event.authorizationToken) = some t
          ∧ t.payload.exp = some e ∧ e ≤ now)) :
    (∃ er, getUserIdFromToken decodeJwt now (jwtSecret env)
        event.authorizationToken = .error er) ∧
    handler decodeJwt fgaCheck now env event = .error "Unauthorized" := by
  have herr : ∃ er, getUserIdFromToken decodeJwt now (jwtSecret env)
      event.authorizationToken = .error er := by
    by_cases hsw : jsStartsWith event.authorizationToken "Bearer " = true
    · rcases hbad with h | h | ⟨t, ht, hs⟩ | ⟨t, e, ht, he, hle⟩
      · rw [hsw] at h; cases h
      · exact ⟨.malformed, by simp [getUserIdFromToken, jwtVerify, hsw, h]⟩
      · exact ⟨.badSignature, by simp [getUserIdFromToken, jwtVerify, hsw, ht, hs]⟩
      · by_cases hsig : t.signedWith = jwtSecret env
        · exact ⟨.expired,
            by simp [getUserIdFromToken, jwtVerify, hsw, ht, hsig, he, hle]⟩
        · exact ⟨.badSignature,
            by simp [getUserIdFromToken, jwtVerify, hsw, ht, hsig]⟩
    · exact ⟨.malformed, by simp [getUserIdFromToken, hsw]⟩
  refine ⟨herr, ?_⟩
  obtain ⟨er, her⟩ := herr
  cases hx : extractDocumentId event.methodArn with
  | none => simp [handler, hx]
  | some d =>
    by_cases hde : d = ""
    · simp [handler, hx, hde]
    · simp [handler, hx, hde, her]

/-- Witness for C2: a `Basic` header (no `Bearer ` prefix) makes the handler
throw. -/
theorem C2_witness :
    (∃ er, getUserIdFromToken demoDecodeJwt 0 (jwtSecret none)
        "Basic zzz" = .error er) ∧
    handler demoDecodeJwt (fun _ => .ok true) 0 none
      (AuthorizerEvent.mk "Basic zzz" demoArn none) = .error "Unauthorized" :=
  C2_invalid_claim_throws demoDecodeJwt (fun _ => .ok true) 0 none
    (AuthorizerEvent.mk "Basic zzz" demoArn none) (Or.inl (by decide))

/-- C9: the handler derives the document id as the substring of the method
ARN after its last `:` and then after that substring's last `/`; when that
yields `undefined` or the empty string it throws, so an Allow (indeed any)
policy is only returned when an extractable nonempty document id exists. -/
theorem C9_doc_id_guard
    (decodeJwt : String → Option SignedJwt)
    (fgaCheck : CheckRequest → Except CheckError Bool)
    (now : Nat) (env : Option String) (event : AuthorizerEvent) :
    ((extractDocumentId event.methodArn = none ∨
        extractDocumentId event.methodArn = some "") →
      handler decodeJwt fgaCheck now env event = .error "Unauthorized") ∧
    (∀ res, handler decodeJwt fgaCheck now env event = .ok res →
      ∃ d, extractDocumentId event.methodArn = some d ∧ d ≠ "") := by
  constructor
  · rintro (h | h) <;> simp [handler, h]
  · intro res hres
    cases hx : extractDocumentId event.methodArn with
    | none => simp [handler, hx] at hres
    | some d =>
      refine ⟨d, rfl, ?_⟩
      intro hde
      rw [hde] at hx
      simp [handler, hx] at hres

/-- Witness for C9: on a method ARN ending in `/` the derived id is the
empty string and the handler throws. -/
theorem C9_witness :
    handler demoDecodeJwt (fun _ => .ok true) 0 none
      (AuthorizerEvent.mk "Bearer alice-token" "a:b/" none) =
      .error "Unauthorized" :=
  (C9_doc_id_guard demoDecodeJwt (fun _ => .ok true) 0 none
    (AuthorizerEvent.mk "Bearer alice-token" "a:b/" none)).1 (Or.inr (by decide))

/-- C10: when the `JWT_SECRET` environment variable is unset or empty, the
verification secret is the hardcoded constant `your-secret-key`, and a
non-expired token signed with that constant is accepted, its `sub` claim
becoming the authorized subject id. -/
theorem C10_fallback_secret
    (decodeJwt : String → Option SignedJwt) (now : Nat) (env : Option String)
    (event : AuthorizerEvent) (payload : JwtPayload)
    (henv : env = none ∨ env = some "")
    (hsw : jsStartsWith event.authorizationToken "Bearer " = true)
    (hdec : decodeJwt (bearerToken event.authorizationToken) =
      some (SignedJwt.mk payload "your-secret-key"))
    (hexp : payload.exp = none ∨ ∃ e, payload.exp = some e ∧ now < e) :
    jwtSecret env = "your-secret-key" ∧
    getUserIdFromToken decodeJwt now (jwtSecret env) event.authorizationToken =
      .ok payload.sub := by
  have hsec : jwtSecret env = "your-secret-key" := by
    rcases henv with rfl | rfl <;> simp [jwtSecret]
  refine ⟨hsec, ?_⟩
  rcases hexp with he | ⟨e, he, hlt⟩
  · simp [getUserIdFromToken, jwtVerify, hsw, hdec, hsec, he]
  · have : ¬ e ≤ now := by omega
    simp [getUserIdFromToken, jwtVerify, hsw, hdec, hsec, he, this]

/-- Witness for C10: with the environment variable unset, alice's token
signed with the constant secret is accepted and `alice` is the subject. -/
theorem C10_witness :
    jwtSecret none = "your-secret-key" ∧
    getUserIdFromToken demoDecodeJwt 0 (jwtSecret none)
      demoEvent.authorizationToken = .ok "alice" :=
  C10_fallback_secret demoDecodeJwt 0 none demoEvent (JwtPayload.mk "alice" none)
    (Or.inl rfl) (by decide) (by rfl) (Or.inl rfl)

/-- C3: a check query naming an object type or relation not declared in the
compiled schema fails with `UnknownTypeError` / `UnknownRelationError` — in
particular every check the deployed handler issues, since it names resource
type `report` and the schema declares only `user`, `team` and `document` —
and the handler surfaces a failing check as a thrown `Unauthorized`, never
as a deny policy or a silent `authorized = false`. -/
theorem C3_unknown_type_is_error_not_deny :
    (∀ (W : List Warrant) (subj : Obj) (docId : String),
      check repoSchema W subj "viewer" (Obj.mk "report" docId) =
        .error (.unknownType "report")) ∧
    (∀ (S : Schema) (W : List Warrant) (subj obj : Obj) (rel : String)
        (td : TypeDef),
      findType S obj.type = some td → findRel td rel = none →
      check S W subj rel obj = .error (.unknownRelation obj.type rel)) ∧
    (∀ (decodeJwt : String → Option SignedJwt) (now : Nat) (env : Option String)
        (event : AuthorizerEvent) (e : CheckError)
        (fgaCheck : CheckRequest → Except CheckError Bool),
      (∀ r, fgaCheck r = .error e) →
      handler decodeJwt fgaCheck now env event = .error "Unauthorized") := by
  refine ⟨?_, ?_, ?_⟩
  · intro W subj docId
    simp [check, findType, repoSchema]
  · intro S W subj obj rel td hft hfr
    simp [check, hft, hfr]
  · intro decodeJwt now env event e fgaCheck hfga
    cases hx : extractDocumentId event.methodArn with
    | none => simp [handler, hx]
    | some d =>
      by_cases hde : d = ""
      · simp [handler, hx, hde]
      · cases huid : getUserIdFromToken decodeJwt now (jwtSecret env)
            event.authorizationToken with
        | error er => simp [handler, hx, hde, huid]
        | ok uid => simp [handler, hx, hde, huid, hfga]

/-- Witness for C3: the handler's own query shape against the repository
schema errors for any of the demo warrants, a missing relation errors, and
the handler with an erroring check throws. -/
theorem C3_witness :
    check repoSchema demoWarrants (Obj.mk "user" "alice") "viewer"
        (Obj.mk "report" "doc1") = .error (.unknownType "report") ∧
    check repoSchema demoWarrants (Obj.mk "user" "alice") "frobnicate"
        (Obj.mk "document" "doc1") =
      .error (.unknownRelation "document" "frobnicate") ∧
    handler demoDecodeJwt (fun _ => .error (.unknownType "report")) 0 none
        demoEvent = .error "Unauthorized" :=
  ⟨C3_unknown_type_is_error_not_deny.1 demoWarrants (Obj.mk "user" "alice") "doc1",
   C3_unknown_type_is_error_not_deny.2.1 repoSchema demoWarrants
     (Obj.mk "user" "alice") (Obj.mk "document" "doc1") "frobnicate" _ rfl rfl,
   C3_unknown_type_is_error_not_deny.2.2 demoDecodeJwt 0 none demoEvent
     (.unknownType "report") _ (fun _ => rfl)⟩

/-- C4: the decision service evaluates a token-pinned check at exactly the
token's version — a later write does not change a check pinned at an earlier
version — and with no token it uses the store's latest version; the deployed
handler's result does not depend on the Warrant-Token header, and its check
request carries no version. -/
theorem C4_consistency_token_pinning :
    (∀ (S : Schema) (s : Store) (subj : Obj) (rel : String) (obj : Obj)
        (v cv : Nat) (w : Warrant),
      v < cv →
      decideAt S (s ++ [VersionedWarrant.mk w cv none]) subj rel obj
          (some (ConsistencyToken.mk v)) =
        decideAt S s subj rel obj (some (ConsistencyToken.mk v))) ∧
    (∀ (S : Schema) (s : Store) (subj : Obj) (rel : String) (obj : Obj),
      decideAt S s subj rel obj none =
        decideAt S s subj rel obj
          (some (ConsistencyToken.mk (latestVersion s)))) ∧
    (∀ (S : Schema) (s : Store) (subj : Obj) (rel : String) (obj : Obj)
        (t : ConsistencyToken) (d : Decision),
      decideAt S s subj rel obj (some t) = .ok d → d.atVersion = t.version) ∧
    (∀ (decodeJwt : String → Option SignedJwt)
        (fgaCheck : CheckRequest → Except CheckError Bool)
        (now : Nat) (env : Option String) (event : AuthorizerEvent)
        (wt : Option String),
      handler decodeJwt fgaCheck now env
          (AuthorizerEvent.mk event.authorizationToken event.methodArn wt) =
        handler decodeJwt fgaCheck now env event) := by
  refine ⟨?_, ?_, ?_, ?_⟩
  · intro S s subj rel obj v cv w hlt
    have hvis : visibleAt (s ++ [VersionedWarrant.mk w cv none]) v =
        visibleAt s v := by
      simp [visibleAt, List.filter_append, show ¬ cv ≤ v by omega]
    simp [decideAt, hvis]
  · intro S s subj rel obj
    rfl
  · intro S s subj rel obj t d h
    simp only [decideAt] at h
    cases hc : check S (visibleAt s t.version) subj rel obj with
    | error e => rw [hc] at h; cases h
    | ok b => rw [hc] at h; cases h; rfl
  · intro decodeJwt fgaCheck now env event wt
    rfl

/-- Witness for C4: a check pinned at version 1 is unaffected by a later
write at version 2. -/
theorem C4_witness :
    decideAt repoSchema
        ([VersionedWarrant.mk
            (Warrant.mk "document" "doc1" "owner" "user" "alice") 1 none] ++
          [VersionedWarrant.mk
            (Warrant.mk "document" "doc1" "owner" "user" "bob") 2 none])
        (Obj.mk "user" "bob") "viewer" (Obj.mk "document" "doc1")
        (some (ConsistencyToken.mk 1)) =
      decideAt repoSchema
        [VersionedWarrant.mk
          (Warrant.mk "document" "doc1" "owner" "user" "alice") 1 none]
        (Obj.mk "user" "bob") "viewer" (Obj.mk "document" "doc1")
        (some (ConsistencyToken.mk 1)) :=
  C4_consistency_token_pinning.1 repoSchema _ _ _ _ 1 2 _ (by decide)

/-- C5: under the repository schema, a single `(S, owner, D)` warrant — with
no editor or viewer warrant stored — suffices for `check(S, viewer, D)` to
return true, via `owner ⇒ editor ⇒ viewer`. -/
theorem C5_owner_implies_viewer (S D : String) :
    check repoSchema [Warrant.mk "document" D "owner" "user" S]
      (Obj.mk "user" S) "viewer" (Obj.mk "document" D) = .ok true := by
  simp [check, findType, findRel, resolveGo, evalClauses, anyRelated,
    candidates, relsOf, objsOf, hasDirectWarrant, relatedObjs, repoSchema]

/-- C6: under the repository schema, a `(T, parent, D)` warrant and a
`(U, member, T)` warrant make `check(U, viewer, D)` true via the cross-type
rule `relation member on parent [team]`. -/
theorem C6_team_member_views_team_document (T D U : String) :
    check repoSchema
      [Warrant.mk "document" D "parent" "team" T,
       Warrant.mk "team" T "member" "user" U]
      (Obj.mk "user" U) "viewer" (Obj.mk "document" D) = .ok true := by
  simp [check, findType, findRel, resolveGo, evalClauses, anyRelated,
    candidates, relsOf, objsOf, hasDirectWarrant, relatedObjs, repoSchema]

/-- C8: for every finite warrant set, a check against the mutually cyclic
schema (`a` inherits from `b`, `b` inherits from `a`) terminates with a
boolean result (the resolver is a total function), and re-entering a triple
already on the visited call stack returns `false` for that branch. -/
theorem C8_cycle_termination :
    (∀ (W : List Warrant) (subj : Obj) (oid : String),
      ∃ b, check cyclicSchema W subj "a" (Obj.mk "x" oid) = .ok b) ∧
    (∀ (S : Schema) (W : List Warrant) (subj obj0 : Obj)
      (visited : List Triple) (t : Triple), t ∈ visited →
      resolveGo S W subj obj0 visited t = false) := by
  constructor
  · intro W subj oid
    exact ⟨_, rfl⟩
  · intro S W subj obj0 visited t ht
    simp [resolveGo, ht]

/-- Witness for C8: a concrete cyclic-schema check returns a boolean, and a
concrete re-entered triple yields `false`. -/
theorem C8_witness :
    (∃ b, check cyclicSchema [] (Obj.mk "user" "u") "a" (Obj.mk "x" "o") =
      .ok b) ∧
    resolveGo cyclicSchema [] (Obj.mk "user" "u") (Obj.mk "x" "o")
      [Triple.mk (Obj.mk "user" "u") "a" (Obj.mk "x" "o")]
      (Triple.mk (Obj.mk "user" "u") "a" (Obj.mk "x" "o")) = false :=
  ⟨C8_cycle_termination.1 [] (Obj.mk "user" "u") "o",
   C8_cycle_termination.2 cyclicSchema [] (Obj.mk "user" "u") (Obj.mk "x" "o")
     _ _ (List.mem_singleton.mpr rfl)⟩

/-- A subject appearing in no warrant matches no direct warrant. -/
theorem hasDirectWarrant_eq_false {W : List Warrant} {subj : Obj} {t : Triple}
    (hW : ∀ w ∈ W, ¬(w.subjType = subj.type ∧ w.subjId = subj.id))
    (hsubj : t.subject = subj) :
    hasDirectWarrant W t = false := by
  subst hsubj
  unfold hasDirectWarrant
  rw [List.any_eq_false]
  intro w hw
  have hnw := hW w hw
  simp only [Bool.and_eq_true, beq_iff_eq]
  tauto

/-- If every resolver call on `visited` yields `false`, so does scanning any
related-object list. -/
theorem anyRelated_eq_false {S : Schema} {W : List Warrant} {subj obj0 : Obj}
    {visited : List Triple} {r2 : String}
    (hres : ∀ t : Triple, t.subject = subj →
      resolveGo S W subj obj0 visited t = false) :
    ∀ os : List Obj, anyRelated S W subj obj0 visited r2 os = false := by
  intro os
  induction os with
  | nil => simp [anyRelated]
  | cons o rest ih =>
    simp [anyRelated, ih, hres (Triple.mk subj r2 o) rfl]

/-- If every resolver call on `visited` yields `false`, so does every inherit
sub-rule list. -/
theorem evalClauses_eq_false {S : Schema} {W : List Warrant} {subj obj0 : Obj}
    {visited : List Triple} {obj : Obj}
    (hres : ∀ t : Triple, t.subject = subj →
      resolveGo S W subj obj0 visited t = false) :
    ∀ cs : List Clause, evalClauses S W subj obj0 visited obj cs = false := by
  intro cs
  induction cs with
  | nil => simp [evalClauses]
  | cons c rest ih =>
    cases c with
    | rel r2 => simp [evalClauses, ih, hres (Triple.mk subj r2 obj) rfl]
    | relOn r2 via viaType =>
      simp [evalClauses, ih, anyRelated_eq_false hres]

/-- A zero termination measure puts every candidate triple on the visited
stack. -/
theorem mem_visited_of_unvisited_zero {S : Schema} {W : List Warrant}
    {subj obj0 : Obj} {visited : List Triple}
    (h0 : unvisited S W subj obj0 visited = 0) {t : Triple}
    (hc : t ∈ candidates S W subj obj0) : t ∈ visited := by
  unfold unvisited at h0
  rw [List.length_eq_zero] at h0
  by_contra hv
  have hmem : t ∈ (candidates S W subj obj0).filter fun c => decide (c ∉ visited) :=
    List.mem_filter.mpr ⟨hc, by simp [hv]⟩
  rw [h0] at hmem
  cases hmem

/-- A subject that is the subject of no warrant resolves to `false` at every
triple, for every schema and visited stack (strong induction on the number
of unvisited candidate triples). -/
theorem resolveGo_eq_false_of_no_subject {S : Schema} {W : List Warrant}
    {subj obj0 : Obj}
    (hW : ∀ w ∈ W, ¬(w.subjType = subj.type ∧ w.subjId = subj.id)) :
    ∀ (n : Nat) (visited : List Triple) (t : Triple),
      unvisited S W subj obj0 visited ≤ n → t.subject = subj →
      resolveGo S W subj obj0 visited t = false := by
  intro n
  induction n with
  | zero =>
    intro visited t hle hsubj
    by_cases hguard : t ∈ visited ∨ t ∉ candidates S W subj obj0
    · simp [resolveGo, hguard]
    · push_neg at hguard
      exact absurd
        (mem_visited_of_unvisited_zero (Nat.le_zero.mp hle) hguard.2) hguard.1
  | succ n ih =>
    intro visited t hle hsubj
    by_cases hguard : t ∈ visited ∨ t ∉ candidates S W subj obj0
    · simp [resolveGo, hguard]
    · have hng := hguard
      push_neg at hguard
      have hlt := unvisited_cons_lt hguard.2 hguard.1
      have hrec : ∀ t' : Triple, t'.subject = subj →
          resolveGo S W subj obj0 (t :: visited) t' = false :=
        fun t' ht' => ih (t :: visited) t' (by omega) ht'
      rw [resolveGo, dif_neg hng, hasDirectWarrant_eq_false hW hsubj,
        Bool.false_or]
      cases hft : findType S t.object.type with
      | none => simp
      | some td =>
        cases hfr : findRel td t.relation with
        | none => simp [hfr]
        | some rd => simpa [hfr] using evalClauses_eq_false hrec rd.inherit

/-- C7: a subject with no warrant at all (hence no direct warrant and no
inherited path) checks to `authorized = false` — an `ok` result, not an
error — and a handler whose check returns `ok false` returns the well-formed
Deny policy without throwing. -/
theorem C7_negative_result_is_deny_not_error :
    (∀ (S : Schema) (W : List Warrant) (subj obj : Obj) (rel : String)
        (td : TypeDef) (rd : RelationDef),
      findType S obj.type = some td → findRel td rel = some rd →
      (∀ w ∈ W, ¬(w.subjType = subj.type ∧ w.subjId = subj.id)) →
      check S W subj rel obj = .ok false) ∧
    (∀ (decodeJwt : String → Option SignedJwt)
        (fgaCheck : CheckRequest → Except CheckError Bool)
        (now : Nat) (env : Option String) (event : AuthorizerEvent)
        (d uid : String),
      extractDocumentId event.methodArn = some d → d ≠ "" →
      getUserIdFromToken decodeJwt now (jwtSecret env)
          event.authorizationToken = .ok uid →
      fgaCheck (CheckRequest.mk "report" d "viewer" "user" uid) = .ok false →
      handler decodeJwt fgaCheck now env event =
        .ok (AuthorizerResult.mk uid
          (PolicyDocument.mk "2012-10-17"
            [PolicyStatement.mk "execute-api:Invoke" "Deny"
              event.methodArn]))) := by
  constructor
  · intro S W subj obj rel td rd hft hfr hW
    simp only [check, hft, hfr]
    rw [resolveGo_eq_false_of_no_subject hW
      (unvisited S W subj obj []) [] (Triple.mk subj rel obj) le_rfl rfl]
  · intro decodeJwt fgaCheck now env event d uid hd hne huid hchk
    simp [handler, hd, hne, huid, hchk]

/-- Witness for C7: charlie, who holds no warrant, is denied on alice's
document with an `ok false` check, and the handler returns the Deny
policy. -/
theorem C7_witness :
    check repoSchema demoWarrants (Obj.mk "user" "charlie") "viewer"
        (Obj.mk "document" "owner-only-doc.txt") = .ok false ∧
    handler (fun _ => some (SignedJwt.mk (JwtPayload.mk "charlie" none)
        "your-secret-key")) (fun _ => .ok false) 0 none demoEvent =
      .ok (AuthorizerResult.mk "charlie"
        (PolicyDocument.mk "2012-10-17"
          [PolicyStatement.mk "execute-api:Invoke" "Deny"
            demoEvent.methodArn])) :=
  ⟨C7_negative_result_is_deny_not_error.1 repoSchema demoWarrants
      (Obj.mk "user" "charlie") (Obj.mk "document" "owner-only-doc.txt")
      "viewer" _ _ rfl rfl (by decide),
   C7_negative_result_is_deny_not_error.2
      (fun _ => some (SignedJwt.mk (JwtPayload.mk "charlie" none)
        "your-secret-key")) (fun _ => .ok false) 0 none demoEvent
      "doc1" "charlie" (by decide) (by decide) (by rfl) rfl⟩

end Claims
